import Mathlib

/-!
# Verification of the `pbcurve` bonding-curve module

Shallow embedding of `src/native/src/curve.rs`: a constant-product market
maker (CPMM) with virtual token reserves over `u128` arithmetic.  Machine
integers are modelled as `Nat` together with explicit bounds against
`U128MAX`; Rust's `checked_*` operations become `Option`-valued functions,
`saturating_*` operations clamp at the bounds, and fallible methods return
`Except CurveError`.
-/

instance {ε α : Type} [DecidableEq ε] [DecidableEq α] : DecidableEq (Except ε α) :=
  fun a b =>
  match a, b with
  | .error e1, .error e2 =>
    if h : e1 = e2 then .isTrue (h ▸ rfl) else .isFalse fun hc => h (Except.error.inj hc)
  | .error _, .ok _ => .isFalse fun hc => Except.noConfusion hc
  | .ok _, .error _ => .isFalse fun hc => Except.noConfusion hc
  | .ok v1, .ok v2 =>
    if h : v1 = v2 then .isTrue (h ▸ rfl) else .isFalse fun hc => h (Except.ok.inj hc)

/-- Largest value representable in a `u128`, i.e. `2^128 - 1`. -/
def U128MAX : Nat := 2 ^ 128 - 1

/-- Model of `u128::checked_add`: `some (a + b)` unless the sum overflows. -/
def checked_add (a b : Nat) : Option Nat :=
  if a + b ≤ U128MAX then some (a + b) else none

/-- Model of `u128::checked_mul`: `some (a * b)` unless the product overflows. -/
def checked_mul (a b : Nat) : Option Nat :=
  if a * b ≤ U128MAX then some (a * b) else none

/-- Model of `u128::checked_sub`: `some (a - b)` unless `b > a`. -/
def checked_sub (a b : Nat) : Option Nat :=
  if b ≤ a then some (a - b) else none

/-- Model of `u128::saturating_add`: clamps at `U128MAX`. -/
def saturating_add (a b : Nat) : Nat := min (a + b) U128MAX

/-- Model of `u128::saturating_sub`: on `Nat` this is truncated subtraction. -/
def saturating_sub (a b : Nat) : Nat := a - b

/-- Model of `u128::saturating_mul`: clamps at `U128MAX`. -/
def saturating_mul (a b : Nat) : Nat := min (a * b) U128MAX

/-- Model of wrapping `u128` addition (overflow reduces mod `2^128`). -/
def wrapping_add (a b : Nat) : Nat := (a + b) % (U128MAX + 1)

/-- Model of wrapping `u128` multiplication (overflow reduces mod `2^128`). -/
def wrapping_mul (a b : Nat) : Nat := (a * b) % (U128MAX + 1)

/-- Error kinds of the curve module (`enum CurveError`). -/
inductive CurveError where
  | InvalidConfig
  | OutOfRange
  | ZeroInput
  | ExceedsPool
deriving DecidableEq

/-- Input configuration (`struct CurveConfig`). -/
structure CurveConfig where
  total_supply : Nat
  sell_amount : Nat
  vt : Nat
  mc_target_sats : Nat
deriving DecidableEq

/-- Read-only view of the curve at a step (`struct CurveSnapshot`). -/
structure CurveSnapshot where
  step : Nat
  x : Nat
  y : Nat
deriving DecidableEq

/-- The immutable curve (`struct Curve`): config fields plus derived
reserves `y0`, `x0` and the constant product `k`. -/
structure Curve where
  total_supply : Nat
  sell_amount : Nat
  vt : Nat
  y0 : Nat
  x0 : Nat
  k : Nat
deriving DecidableEq

/-- Model of `Curve::new`: validate the config and derive `y0`, `x0`, `k`.
Mirrors the Rust source: the zero check on all four parameters, then
`checked_add` / `checked_mul` at every arithmetic step, the `den == 0`
and `x0 == 0` guards, and `saturating_div` (plain division, since `den`
is already known nonzero). -/
def Curve.new (cfg : CurveConfig) : Except CurveError Curve :=
  if cfg.total_supply = 0 ∨ cfg.sell_amount = 0 ∨ cfg.vt = 0 ∨ cfg.mc_target_sats = 0 then
    .error .InvalidConfig
  else
    match checked_add cfg.vt cfg.sell_amount with
    | none => .error .InvalidConfig
    | some y0 =>
      match checked_mul cfg.vt cfg.vt with
      | none => .error .InvalidConfig
      | some vt_sq =>
        match checked_mul cfg.mc_target_sats vt_sq with
        | none => .error .InvalidConfig
        | some num =>
          match checked_mul y0 cfg.total_supply with
          | none => .error .InvalidConfig
          | some den =>
            if den = 0 then .error .InvalidConfig
            else
              let x0 := num / den
              if x0 = 0 then .error .InvalidConfig
              else
                match checked_mul x0 y0 with
                | none => .error .InvalidConfig
                | some k =>
                  .ok { total_supply := cfg.total_supply, sell_amount := cfg.sell_amount,
                        vt := cfg.vt, y0 := y0, x0 := x0, k := k }

/-- Model of `Curve::max_step`. -/
def Curve.max_step (c : Curve) : Nat := c.sell_amount

/-- Model of `Curve::y_at`: `Y(step) = vt + (sell_amount - step)`, `OutOfRange` when
`step > sell_amount`. -/
def Curve.y_at (c : Curve) (step : Nat) : Except CurveError Nat :=
  if c.sell_amount < step then .error .OutOfRange
  else
    match checked_sub c.sell_amount step with
    | none => .error .OutOfRange
    | some remaining =>
      match checked_add c.vt remaining with
      | none => .error .InvalidConfig
      | some y => .ok y

/-- Model of `Curve::x_from_y`: `X = floor(k / Y)`. -/
def Curve.x_from_y (c : Curve) (y : Nat) : Nat := c.k / y

/-- Model of `Curve::snapshot`: the `(step, x, y)` state at a step. -/
def Curve.snapshot (c : Curve) (step : Nat) : Except CurveError CurveSnapshot :=
  match c.y_at step with
  | .error e => .error e
  | .ok y => .ok { step := step, x := c.x_from_y y, y := y }

/-- Model of `Curve::mint`: buy tokens with `sats_in` at `step`.  Mirrors the Rust
source: `ZeroInput` first, then `y_at`, `checked_add` for the new sats
reserve, floor division for the raw new token reserve, the `vt` floor,
saturating subtraction for `tokens_out` and the clamped new step. -/
def Curve.mint (c : Curve) (step sats_in : Nat) : Except CurveError (Nat × Nat) :=
  if sats_in = 0 then .error .ZeroInput
  else
    match c.y_at step with
    | .error e => .error e
    | .ok y =>
      let x := c.x_from_y y
      match checked_add x sats_in with
      | none => .error .InvalidConfig
      | some x2 =>
        let y_raw := c.k / x2
        let y_prime := if y_raw < c.vt then c.vt else y_raw
        let dy := saturating_sub y y_prime
        let new_step := min (saturating_add step dy) c.sell_amount
        .ok (new_step, dy)

/-- Loop body of `Curve::simulate_mints`: thread the step through the
mints, recording `(step_before, tokens_out)` per mint, aborting on the
first error with no partial results. -/
def simulateMintsGo (c : Curve) : Nat → List Nat → Except CurveError (List (Nat × Nat))
  | _, [] => .ok []
  | current_step, m :: rest =>
    match c.mint current_step m with
    | .error e => .error e
    | .ok (new_step, tokens_out) =>
      match simulateMintsGo c new_step rest with
      | .error e => .error e
      | .ok tail => .ok ((current_step, tokens_out) :: tail)

/-- Model of `Curve::simulate_mints`: run the mints sequentially from step 0. -/
def Curve.simulate_mints (c : Curve) (mints : List Nat) :
    Except CurveError (List (Nat × Nat)) :=
  simulateMintsGo c 0 mints

/-- Model of `Curve::total_raise_sats`: `floor(k / vt) - x0`, saturating at zero. -/
def Curve.total_raise_sats (c : Curve) : Nat :=
  saturating_sub (c.k / c.vt) c.x0

/-- Model of `Curve::final_mc_sats`: `floor(k / vt^2) * total_supply`, with a checked
square and a saturating final product. -/
def Curve.final_mc_sats (c : Curve) : Except CurveError Nat :=
  match checked_mul c.vt c.vt with
  | none => .error .InvalidConfig
  | some vt_sq => .ok (saturating_mul (c.k / vt_sq) c.total_supply)

/-- Model of `Curve::progress_at_step`: `step.saturating_mul(100) / total_supply`. -/
def Curve.progress_at_step (c : Curve) (step : Nat) : Nat :=
  saturating_mul step 100 / c.total_supply

/-- The `u128` iterator product (wrapping on overflow, as released Rust
compiles it). -/
def u128_product (l : List Nat) : Nat := l.foldl wrapping_mul 1

/-- The `u128` iterator sum (wrapping on overflow, as released Rust
compiles it). -/
def u128_sum (l : List Nat) : Nat := l.foldl wrapping_add 0

/-- Model of `Curve::avg_progess` (name as in the source): `product / sum` over the
slice.  Rust `u128` division panics when the divisor is zero, modelled as
`none`. -/
def Curve.avg_progess (_c : Curve) (steps : List Nat) : Option Nat :=
  let product := u128_product steps
  let sum := u128_sum steps
  if sum = 0 then none else some (product / sum)

/-- Modelled from the spec (§4.4): batch simulation described as a
sequential fold — start at the given step, apply `mint` one amount at a
time with each call's returned step feeding the next call's input step,
return the final step together with the `(step_before_this_trade,
tokens_out)` pairs in input order, and fail outright on the first error. -/
def specSequentialMints (c : Curve) (step : Nat) :
    List Nat → Except CurveError (Nat × List (Nat × Nat))
  | [] => .ok (step, [])
  | a :: rest =>
    match c.mint step a with
    | .error e => .error e
    | .ok (ns, t) =>
      match specSequentialMints c ns rest with
      | .error e => .error e
      | .ok (fs, pairs) => .ok (fs, (step, t) :: pairs)

/-! ## Inversion and evaluation lemmas for the checked arithmetic -/

theorem checked_add_eq_some {a b r : Nat} (h : checked_add a b = some r) :
    r = a + b ∧ a + b ≤ U128MAX := by
  unfold checked_add at h
  split at h
  · exact ⟨(Option.some.inj h).symm, by assumption⟩
  · exact Option.noConfusion h

theorem checked_mul_eq_some {a b r : Nat} (h : checked_mul a b = some r) :
    r = a * b ∧ a * b ≤ U128MAX := by
  unfold checked_mul at h
  split at h
  · exact ⟨(Option.some.inj h).symm, by assumption⟩
  · exact Option.noConfusion h

theorem checked_sub_eq_some {a b r : Nat} (h : checked_sub a b = some r) :
    r = a - b ∧ b ≤ a := by
  unfold checked_sub at h
  split at h
  · exact ⟨(Option.some.inj h).symm, by assumption⟩
  · exact Option.noConfusion h

theorem checked_add_of_le {a b : Nat} (h : a + b ≤ U128MAX) :
    checked_add a b = some (a + b) := by
  unfold checked_add
  exact if_pos h

theorem checked_mul_of_le {a b : Nat} (h : a * b ≤ U128MAX) :
    checked_mul a b = some (a * b) := by
  unfold checked_mul
  exact if_pos h

theorem checked_sub_of_le {a b : Nat} (h : b ≤ a) :
    checked_sub a b = some (a - b) := by
  unfold checked_sub
  exact if_pos h

/-! ## Structural facts about a successfully constructed curve -/

/-- Everything `Curve::new` guarantees about a curve it returns: the config
fields are copied, all four parameters were strictly positive, `y0` is the
non-overflowing sum `vt + sell_amount`, `x0` is the floor quotient from the
market-cap target and is nonzero, and `k` is exactly `x0 * y0`, in range. -/
theorem Curve.new_ok_facts {cfg : CurveConfig} {c : Curve} (h : Curve.new cfg = .ok c) :
    c.total_supply = cfg.total_supply ∧ c.sell_amount = cfg.sell_amount ∧ c.vt = cfg.vt ∧
    0 < c.total_supply ∧ 0 < c.sell_amount ∧ 0 < c.vt ∧ 0 < cfg.mc_target_sats ∧
    c.y0 = c.vt + c.sell_amount ∧ c.y0 ≤ U128MAX ∧
    c.x0 = cfg.mc_target_sats * (cfg.vt * cfg.vt) /
      ((cfg.vt + cfg.sell_amount) * cfg.total_supply) ∧
    0 < c.x0 ∧ c.k = c.x0 * c.y0 ∧ c.k ≤ U128MAX := by
  unfold Curve.new at h
  split at h
  · exact Except.noConfusion h
  next hzero =>
  split at h
  · exact Except.noConfusion h
  next y0 hy0 =>
  split at h
  · exact Except.noConfusion h
  next vt_sq hvt =>
  split at h
  · exact Except.noConfusion h
  next num hnum =>
  split at h
  · exact Except.noConfusion h
  next den hden =>
  split at h
  · exact Except.noConfusion h
  next hden0 =>
  dsimp only at h
  split at h
  · exact Except.noConfusion h
  next hx0 =>
  split at h
  · exact Except.noConfusion h
  next k hk =>
  obtain ⟨hy0v, hy0le⟩ := checked_add_eq_some hy0
  obtain ⟨hvtv, _⟩ := checked_mul_eq_some hvt
  obtain ⟨hnumv, _⟩ := checked_mul_eq_some hnum
  obtain ⟨hdenv, _⟩ := checked_mul_eq_some hden
  obtain ⟨hkv, hkle⟩ := checked_mul_eq_some hk
  push_neg at hzero
  obtain ⟨hts, hsa, hvt0, hmc⟩ := hzero
  obtain rfl := (Except.ok.inj h).symm
  refine ⟨rfl, rfl, rfl, Nat.pos_of_ne_zero hts, Nat.pos_of_ne_zero hsa,
    Nat.pos_of_ne_zero hvt0, Nat.pos_of_ne_zero hmc, hy0v, ?_, ?_,
    Nat.pos_of_ne_zero hx0, hkv, ?_⟩
  · show y0 ≤ U128MAX
    omega
  · show num / den = _
    rw [hnumv, hvtv, hdenv, hy0v]
  · show k ≤ U128MAX
    rw [hkv]
    exact hkle

/-! ## Evaluation lemmas for the state-query and trade operations -/

theorem Curve.y_at_eq_ok {c : Curve} {step : Nat} (h1 : step ≤ c.sell_amount)
    (h2 : c.vt + (c.sell_amount - step) ≤ U128MAX) :
    c.y_at step = .ok (c.vt + (c.sell_amount - step)) := by
  unfold Curve.y_at
  split
  · omega
  rw [checked_sub_of_le h1]
  dsimp only
  rw [checked_add_of_le h2]

theorem Curve.y_at_ok_facts {c : Curve} {step y : Nat} (h : c.y_at step = .ok y) :
    step ≤ c.sell_amount ∧ y = c.vt + (c.sell_amount - step) ∧ y ≤ U128MAX := by
  unfold Curve.y_at at h
  split at h
  · exact Except.noConfusion h
  next hle =>
  split at h
  · exact Except.noConfusion h
  next remaining hrem =>
  split at h
  · exact Except.noConfusion h
  next y' hy =>
  obtain ⟨hr, _⟩ := checked_sub_eq_some hrem
  obtain ⟨hyv, hyle⟩ := checked_add_eq_some hy
  obtain rfl := (Except.ok.inj h).symm
  exact ⟨by omega, by omega, by omega⟩

theorem Curve.snapshot_eq_ok {c : Curve} {step y : Nat} (hy : c.y_at step = .ok y) :
    c.snapshot step = .ok ⟨step, c.x_from_y y, y⟩ := by
  unfold Curve.snapshot
  rw [hy]

theorem Curve.mint_eq_ok {c : Curve} {step sats y : Nat} (hy : c.y_at step = .ok y)
    (hs : 0 < sats) (hov : c.x_from_y y + sats ≤ U128MAX) :
    c.mint step sats = .ok
      (min (saturating_add step (y - max (c.k / (c.x_from_y y + sats)) c.vt)) c.sell_amount,
       y - max (c.k / (c.x_from_y y + sats)) c.vt) := by
  unfold Curve.mint
  rw [if_neg (by omega : ¬ sats = 0), hy]
  dsimp only
  rw [checked_add_of_le hov]
  dsimp only
  have hmax : (if c.k / (c.x_from_y y + sats) < c.vt then c.vt
      else c.k / (c.x_from_y y + sats)) = max (c.k / (c.x_from_y y + sats)) c.vt := by
    rcases Nat.lt_or_ge (c.k / (c.x_from_y y + sats)) c.vt with hlt | hge
    · rw [if_pos hlt, Nat.max_eq_right (Nat.le_of_lt hlt)]
    · rw [if_neg (Nat.not_lt.mpr hge), Nat.max_eq_left hge]
  rw [hmax]
  rfl

theorem Curve.mint_ok_facts {c : Curve} {step sats ns t : Nat}
    (h : c.mint step sats = .ok (ns, t)) :
    0 < sats ∧ ∃ y, c.y_at step = .ok y ∧ c.x_from_y y + sats ≤ U128MAX ∧
      t = y - max (c.k / (c.x_from_y y + sats)) c.vt ∧
      ns = min (saturating_add step t) c.sell_amount := by
  unfold Curve.mint at h
  split at h
  · exact Except.noConfusion h
  next hs0 =>
  split at h
  · exact Except.noConfusion h
  next y hy =>
  dsimp only at h
  split at h
  · exact Except.noConfusion h
  next x2 hx2 =>
  obtain ⟨hx2v, hx2le⟩ := checked_add_eq_some hx2
  have h2 := Except.ok.inj h
  injection h2 with hns ht
  subst hx2v
  have hmax : (if c.k / (c.x_from_y y + sats) < c.vt then c.vt
      else c.k / (c.x_from_y y + sats)) = max (c.k / (c.x_from_y y + sats)) c.vt := by
    rcases Nat.lt_or_ge (c.k / (c.x_from_y y + sats)) c.vt with hlt | hge
    · rw [if_pos hlt, Nat.max_eq_right (Nat.le_of_lt hlt)]
    · rw [if_neg (Nat.not_lt.mpr hge), Nat.max_eq_left hge]
  refine ⟨Nat.pos_of_ne_zero hs0, y, hy, hx2le, ?_, ?_⟩
  · rw [← ht, saturating_sub, hmax]
  · rw [← hns, ← ht]

/-! ## Claim theorems -/

/-- Claim C1: for every curve successfully constructed from a config and
for every step `s` with `0 ≤ s ≤ sell_amount`, `snapshot s` succeeds and
returns the triple `(s, x, y)` with `y = vt + (sell_amount - s)`,
`x = floor(k / y)`, and `x * y ≤ k`. -/
theorem c1_snapshot_invariant (cfg : CurveConfig) (c : Curve) (h : Curve.new cfg = .ok c)
    (s : Nat) (hs : s ≤ c.sell_amount) :
    c.snapshot s = .ok ⟨s, c.k / (c.vt + (c.sell_amount - s)), c.vt + (c.sell_amount - s)⟩ ∧
    c.k / (c.vt + (c.sell_amount - s)) * (c.vt + (c.sell_amount - s)) ≤ c.k := by
  obtain ⟨-, -, -, -, -, -, -, hy0, hy0le, -, -, -, -⟩ := Curve.new_ok_facts h
  have h2 : c.vt + (c.sell_amount - s) ≤ U128MAX := by omega
  have hy := Curve.y_at_eq_ok hs h2
  exact ⟨Curve.snapshot_eq_ok hy, Nat.div_mul_le_self _ _⟩

theorem c1_snapshot_invariant_witness :
    (Curve.mk 1 10 1 11 1 11).snapshot 3 = .ok ⟨3, 11 / (1 + (10 - 3)), 1 + (10 - 3)⟩ ∧
    11 / (1 + (10 - 3)) * (1 + (10 - 3)) ≤ 11 :=
  c1_snapshot_invariant ⟨1, 10, 1, 11⟩ (Curve.mk 1 10 1 11 1 11) (by decide) 3 (by decide)

/-- Claim C2: for every constructed curve, every step in `[0, sell_amount]`,
and every pair of payments `0 < sats_in1 ≤ sats_in2` where both `mint`
calls succeed, the `tokens_out` of the smaller payment is at most the
`tokens_out` of the larger one. -/
theorem c2_mint_monotone (cfg : CurveConfig) (c : Curve) (_hnew : Curve.new cfg = .ok c)
    (step s1 s2 n1 t1 n2 t2 : Nat) (_hstep : step ≤ c.sell_amount)
    (hpos : 0 < s1) (hle : s1 ≤ s2)
    (h1 : c.mint step s1 = .ok (n1, t1)) (h2 : c.mint step s2 = .ok (n2, t2)) :
    t1 ≤ t2 := by
  obtain ⟨-, y1, hy1, -, ht1, -⟩ := Curve.mint_ok_facts h1
  obtain ⟨-, y2, hy2, -, ht2, -⟩ := Curve.mint_ok_facts h2
  rw [hy1] at hy2
  obtain rfl := Except.ok.inj hy2
  have hdiv : c.k / (c.x_from_y y1 + s2) ≤ c.k / (c.x_from_y y1 + s1) :=
    Nat.div_le_div_left (by omega) (by omega)
  have hmax : max (c.k / (c.x_from_y y1 + s2)) c.vt ≤ max (c.k / (c.x_from_y y1 + s1)) c.vt :=
    max_le_max hdiv (le_refl _)
  rw [ht1, ht2]
  omega

theorem c2_mint_monotone_witness :
    (Curve.mk 1 10 1 11 1 11).mint 0 5 = .ok (10, 10) ∧
    (Curve.mk 1 10 1 11 1 11).mint 0 6 = .ok (10, 10) ∧ (10 : Nat) ≤ 10 :=
  ⟨by decide, by decide,
    c2_mint_monotone ⟨1, 10, 1, 11⟩ (Curve.mk 1 10 1 11 1 11) (by decide) 0 5 6 10 10 10 10
      (by decide) (by decide) (by decide) (by decide) (by decide)⟩

/-- Claim C4: for every constructed curve, every successful
`mint step sats_in` returns `new_step = min (step + tokens_out) sell_amount`;
in particular `new_step` never exceeds `sell_amount`. -/
theorem c4_new_step_clamped (cfg : CurveConfig) (c : Curve) (h : Curve.new cfg = .ok c)
    (step sats ns t : Nat) (hm : c.mint step sats = .ok (ns, t)) :
    ns = min (step + t) c.sell_amount ∧ ns ≤ c.sell_amount := by
  obtain ⟨-, -, -, -, -, -, -, hy0, hy0le, -, -, -, -⟩ := Curve.new_ok_facts h
  obtain ⟨-, y, hy, -, -, hns⟩ := Curve.mint_ok_facts hm
  have hsaMAX : c.sell_amount ≤ U128MAX := by omega
  unfold saturating_add at hns
  exact ⟨by omega, by omega⟩

theorem c4_new_step_clamped_witness :
    (Curve.mk 1 10 1 11 1 11).mint 0 5 = .ok (10, 10) ∧
    (10 : Nat) = min (0 + 10) 10 ∧ (10 : Nat) ≤ 10 :=
  ⟨by decide,
    c4_new_step_clamped ⟨1, 10, 1, 11⟩ (Curve.mk 1 10 1 11 1 11) (by decide) 0 5 10 10
      (by decide)⟩

/-- Claim C9: `mint step 0` fails with `ZeroInput` (and not `OutOfRange`)
for every curve and every step, including steps beyond `sell_amount`: the
zero-payment check runs before the step-range check.  Proved for arbitrary
curve values, hence in particular for every constructed curve. -/
theorem c9_mint_zero_sats (c : Curve) (step : Nat) :
    c.mint step 0 = .error CurveError.ZeroInput ∧
    c.mint step 0 ≠ .error CurveError.OutOfRange := by
  have he : c.mint step 0 = .error CurveError.ZeroInput := rfl
  refine ⟨he, ?_⟩
  rw [he]
  intro hc
  exact CurveError.noConfusion (Except.error.inj hc)

/-- Claim C10: for every constructed curve, step `s ≤ sell_amount` and
positive payment with no overflow in `x + sats_in`, the clamped reserve
`y_prime = max (floor (k / (x + sats_in))) vt` stays at or below `y_at s`,
so the saturating subtraction in `mint` is exact: `tokens_out + y_prime = y`. -/
theorem c10_mint_sub_exact (cfg : CurveConfig) (c : Curve) (h : Curve.new cfg = .ok c)
    (step sats y : Nat) (hy : c.y_at step = .ok y) (hs : 0 < sats)
    (hov : c.x_from_y y + sats ≤ U128MAX) :
    max (c.k / (c.x_from_y y + sats)) c.vt ≤ y ∧
    c.mint step sats = .ok
      (min (saturating_add step (y - max (c.k / (c.x_from_y y + sats)) c.vt)) c.sell_amount,
       y - max (c.k / (c.x_from_y y + sats)) c.vt) ∧
    (y - max (c.k / (c.x_from_y y + sats)) c.vt) + max (c.k / (c.x_from_y y + sats)) c.vt = y := by
  obtain ⟨-, -, -, -, -, hvt, -, -, -, -, -, -, -⟩ := Curve.new_ok_facts h
  obtain ⟨-, hyv, -⟩ := Curve.y_at_ok_facts hy
  have hy_pos : 0 < y := by omega
  have hvty : c.vt ≤ y := by omega
  have h1 : c.k < y * (c.k / y) + y := by
    conv_lhs => rw [← Nat.div_add_mod c.k y]
    exact Nat.add_lt_add_left (Nat.mod_lt _ hy_pos) _
  have h2 : y * (c.k / y) + y = y * (c.k / y + 1) := by ring
  have h3 : y * (c.k / y + 1) ≤ y * (c.k / y + sats) :=
    Nat.mul_le_mul (Nat.le_refl y) (by omega)
  have h4 : c.k < y * (c.k / y + sats) := lt_of_lt_of_le (h2 ▸ h1) h3
  have hxy : c.x_from_y y = c.k / y := rfl
  have hlt : c.k / (c.x_from_y y + sats) < y := by
    rw [hxy]
    exact (Nat.div_lt_iff_lt_mul (by omega)).mpr h4
  have hmle : max (c.k / (c.x_from_y y + sats)) c.vt ≤ y :=
    max_le (Nat.le_of_lt hlt) hvty
  exact ⟨hmle, Curve.mint_eq_ok hy hs hov, Nat.sub_add_cancel hmle⟩

theorem c10_mint_sub_exact_witness :
    max (11 / ((Curve.mk 1 10 1 11 1 11).x_from_y 11 + 5)) 1 ≤ 11 ∧
    (Curve.mk 1 10 1 11 1 11).mint 0 5 = .ok
      (min (saturating_add 0 (11 - max (11 / ((Curve.mk 1 10 1 11 1 11).x_from_y 11 + 5)) 1)) 10,
       11 - max (11 / ((Curve.mk 1 10 1 11 1 11).x_from_y 11 + 5)) 1) ∧
    (11 - max (11 / ((Curve.mk 1 10 1 11 1 11).x_from_y 11 + 5)) 1) +
      max (11 / ((Curve.mk 1 10 1 11 1 11).x_from_y 11 + 5)) 1 = 11 :=
  c10_mint_sub_exact ⟨1, 10, 1, 11⟩ (Curve.mk 1 10 1 11 1 11) (by decide) 0 5 11
    (by decide) (by decide) (by decide)

/-- Claim C3: a config whose four parameters are strictly positive, whose
intermediate products all fit in `u128`, and whose derived `x0` is nonzero
constructs successfully with `y0 = vt + sell_amount` and `k = x0 * y0`
exactly; a config with any parameter zero fails with `InvalidConfig`. -/
theorem c3_new_correct (cfg : CurveConfig) :
    ((0 < cfg.total_supply ∧ 0 < cfg.sell_amount ∧ 0 < cfg.vt ∧ 0 < cfg.mc_target_sats ∧
      cfg.vt + cfg.sell_amount ≤ U128MAX ∧ cfg.vt * cfg.vt ≤ U128MAX ∧
      cfg.mc_target_sats * (cfg.vt * cfg.vt) ≤ U128MAX ∧
      (cfg.vt + cfg.sell_amount) * cfg.total_supply ≤ U128MAX ∧
      0 < cfg.mc_target_sats * (cfg.vt * cfg.vt) /
        ((cfg.vt + cfg.sell_amount) * cfg.total_supply) ∧
      cfg.mc_target_sats * (cfg.vt * cfg.vt) / ((cfg.vt + cfg.sell_amount) * cfg.total_supply) *
        (cfg.vt + cfg.sell_amount) ≤ U128MAX) →
      ∃ c, Curve.new cfg = .ok c ∧ c.y0 = cfg.vt + cfg.sell_amount ∧
        c.x0 = cfg.mc_target_sats * (cfg.vt * cfg.vt) /
          ((cfg.vt + cfg.sell_amount) * cfg.total_supply) ∧
        c.k = c.x0 * c.y0) ∧
    ((cfg.total_supply = 0 ∨ cfg.sell_amount = 0 ∨ cfg.vt = 0 ∨ cfg.mc_target_sats = 0) →
      Curve.new cfg = .error CurveError.InvalidConfig) := by
  constructor
  · rintro ⟨hts, hsa, hvt, hmc, hadd, hsq, hnum, hden, hx0, hk⟩
    unfold Curve.new
    rw [if_neg (by omega)]
    rw [checked_add_of_le hadd]
    dsimp only
    rw [checked_mul_of_le hsq]
    dsimp only
    rw [checked_mul_of_le hnum]
    dsimp only
    rw [checked_mul_of_le hden]
    dsimp only
    rw [if_neg (by positivity)]
    rw [if_neg (by omega)]
    rw [checked_mul_of_le hk]
    exact ⟨_, rfl, rfl, rfl, rfl⟩
  · intro hz
    unfold Curve.new
    rw [if_pos hz]

theorem c3_new_correct_witness :
    (∃ c, Curve.new ⟨1, 10, 1, 11⟩ = .ok c ∧ c.y0 = 1 + 10 ∧
      c.x0 = 11 * (1 * 1) / ((1 + 10) * 1) ∧ c.k = c.x0 * c.y0) ∧
    Curve.new ⟨0, 10, 1, 11⟩ = .error CurveError.InvalidConfig :=
  ⟨(c3_new_correct ⟨1, 10, 1, 11⟩).1 (by decide),
   (c3_new_correct ⟨0, 10, 1, 11⟩).2 (by decide)⟩

/-- Lemma: the `simulate_mints` loop agrees with the spec-side sequential fold at
every starting step. -/
theorem simulateMintsGo_eq_spec (c : Curve) (amounts : List Nat) (step : Nat) :
    simulateMintsGo c step amounts = Except.map Prod.snd (specSequentialMints c step amounts) := by
  induction amounts generalizing step with
  | nil => rfl
  | cons a rest ih =>
    unfold simulateMintsGo specSequentialMints
    cases hm : c.mint step a with
    | error e => rfl
    | ok p =>
      obtain ⟨ns, t⟩ := p
      dsimp only
      rw [ih ns]
      cases hs : specSequentialMints c ns rest with
      | error e => rfl
      | ok q =>
        obtain ⟨fs, pairs⟩ := q
        rfl

/-- The spec-side sequential fold yields exactly one pair per amount. -/
theorem specSequentialMints_length (c : Curve) (amounts : List Nat) (step fs : Nat)
    (pairs : List (Nat × Nat)) (h : specSequentialMints c step amounts = .ok (fs, pairs)) :
    pairs.length = amounts.length := by
  induction amounts generalizing step fs pairs with
  | nil =>
    unfold specSequentialMints at h
    obtain ⟨-, hp⟩ := Prod.mk.inj (Except.ok.inj h)
    rw [← hp]
    rfl
  | cons a rest ih =>
    unfold specSequentialMints at h
    split at h
    · exact Except.noConfusion h
    next ns t hm =>
    split at h
    · exact Except.noConfusion h
    next fs' pairs' hs =>
    obtain ⟨-, hp⟩ := Prod.mk.inj (Except.ok.inj h)
    rw [← hp]
    simp only [List.length_cons, ih ns fs' pairs' hs]

/-- Claim C5: `simulate_mints amounts` equals the sequential fold from step
0 that threads each `mint`'s returned step into the next call: on success
it returns the `(step_before, tokens_out)` pairs in input order, one per
amount, and the spec fold's final step is the threaded one; on any failure
it returns that error with no partial results. -/
theorem c5_simulate_refines (c : Curve) (amounts : List Nat) :
    c.simulate_mints amounts = Except.map Prod.snd (specSequentialMints c 0 amounts) ∧
    Except.map (fun pairs => pairs.length) (c.simulate_mints amounts) =
      Except.map (fun _ => amounts.length) (specSequentialMints c 0 amounts) := by
  have h1 := simulateMintsGo_eq_spec c amounts 0
  refine ⟨h1, ?_⟩
  rw [show c.simulate_mints amounts = simulateMintsGo c 0 amounts from rfl, h1]
  cases hs : specSequentialMints c 0 amounts with
  | error e => rfl
  | ok q =>
    obtain ⟨fs, pairs⟩ := q
    simp only [Except.map, specSequentialMints_length c amounts 0 fs pairs hs]

/-- Claim C6 counterexample: on the curve constructed from the config
`(1, 10, 1, 11)` we get `x0 = 1`, `k = 11`, and the sats-side reserve is
NOT strictly increasing: `x(0) = floor(11/11) = 1 = floor(11/10) = x(1)`
while `0 < sell_amount`. -/
theorem c6_x_not_strictly_increasing :
    Curve.new ⟨1, 10, 1, 11⟩ = .ok (Curve.mk 1 10 1 11 1 11) ∧
    (0 : Nat) < (Curve.mk 1 10 1 11 1 11).sell_amount ∧
    (Curve.mk 1 10 1 11 1 11).snapshot 0 = .ok ⟨0, 1, 11⟩ ∧
    (Curve.mk 1 10 1 11 1 11).snapshot 1 = .ok ⟨1, 1, 10⟩ ∧
    ¬ (Curve.mk 1 10 1 11 1 11).x_from_y 11 < (Curve.mk 1 10 1 11 1 11).x_from_y 10 := by
  decide

/-- Claim C6 as amended: for every constructed curve, `y` is strictly
decreasing in the step and bounded below by `vt`, and `x = floor(k / y)` is
non-decreasing (not in general strictly increasing) in the step. -/
theorem c6_y_decreasing_x_nondecreasing (cfg : CurveConfig) (c : Curve)
    (h : Curve.new cfg = .ok c) (s : Nat) (hs : s < c.sell_amount)
    (y1 y2 : Nat) (h1 : c.y_at s = .ok y1) (h2 : c.y_at (s + 1) = .ok y2) :
    y2 < y1 ∧ c.vt ≤ y2 ∧ c.x_from_y y1 ≤ c.x_from_y y2 := by
  obtain ⟨-, -, -, -, -, hvt, -, -, -, -, -, -, -⟩ := Curve.new_ok_facts h
  obtain ⟨-, hy1v, -⟩ := Curve.y_at_ok_facts h1
  obtain ⟨-, hy2v, -⟩ := Curve.y_at_ok_facts h2
  exact ⟨by omega, by omega, Nat.div_le_div_left (by omega) (by omega)⟩

theorem c6_y_decreasing_x_nondecreasing_witness :
    (10 : Nat) < 11 ∧ (Curve.mk 1 10 1 11 1 11).vt ≤ 10 ∧
    (Curve.mk 1 10 1 11 1 11).x_from_y 11 ≤ (Curve.mk 1 10 1 11 1 11).x_from_y 10 :=
  c6_y_decreasing_x_nondecreasing ⟨1, 10, 1, 11⟩ (Curve.mk 1 10 1 11 1 11) (by decide)
    0 (by decide) 11 10 (by decide) (by decide)

/-- Claim C7 counterexample: `progress_at_step` is computed with a
saturating multiplication, so on the curve from config `(1, 1, 1, 2)` the
step `U128MAX` yields `floor(U128MAX / 1)`, not the exact
`floor(U128MAX * 100 / 1)`. -/
theorem c7_progress_saturates :
    Curve.new ⟨1, 1, 1, 2⟩ = .ok (Curve.mk 1 1 1 2 1 2) ∧
    (Curve.mk 1 1 1 2 1 2).progress_at_step U128MAX ≠
      U128MAX * 100 / (Curve.mk 1 1 1 2 1 2).total_supply := by
  decide

/-- Claim C7 as amended: for every constructed curve and every step whose
product with 100 fits in `u128`, `progress_at_step step` returns exactly
`floor (step * 100 / total_supply)`; beyond that the multiplication
saturates at `U128MAX` instead of being exact. -/
theorem c7_progress_exact (cfg : CurveConfig) (c : Curve) (_hnew : Curve.new cfg = .ok c)
    (step : Nat) (hstep : step * 100 ≤ U128MAX) :
    c.progress_at_step step = step * 100 / c.total_supply := by
  unfold Curve.progress_at_step saturating_mul
  rw [Nat.min_eq_left hstep]

theorem c7_progress_exact_witness :
    (Curve.mk 1 1 1 2 1 2).progress_at_step 5 = 5 * 100 / (Curve.mk 1 1 1 2 1 2).total_supply :=
  c7_progress_exact ⟨1, 1, 1, 2⟩ (Curve.mk 1 1 1 2 1 2) (by decide) 5 (by decide)

/-- Folding the wrapping multiplication is folding the exact product
modulo `2^128`. -/
theorem foldl_wrapping_mul_mod (l : List Nat) (a : Nat) :
    List.foldl wrapping_mul (a % (U128MAX + 1)) l =
      List.foldl (· * ·) a l % (U128MAX + 1) := by
  induction l generalizing a with
  | nil => rfl
  | cons x xs ih =>
    show List.foldl wrapping_mul (wrapping_mul (a % (U128MAX + 1)) x) xs =
      List.foldl (· * ·) (a * x) xs % (U128MAX + 1)
    have h1 : wrapping_mul (a % (U128MAX + 1)) x = a * x % (U128MAX + 1) := by
      unfold wrapping_mul
      rw [Nat.mod_mul_mod]
    rw [h1]
    exact ih (a * x)

/-- Folding the wrapping addition is folding the exact sum modulo `2^128`. -/
theorem foldl_wrapping_add_mod (l : List Nat) (a : Nat) :
    List.foldl wrapping_add (a % (U128MAX + 1)) l =
      List.foldl (· + ·) a l % (U128MAX + 1) := by
  induction l generalizing a with
  | nil => rfl
  | cons x xs ih =>
    show List.foldl wrapping_add (wrapping_add (a % (U128MAX + 1)) x) xs =
      List.foldl (· + ·) (a + x) xs % (U128MAX + 1)
    have h1 : wrapping_add (a % (U128MAX + 1)) x = (a + x) % (U128MAX + 1) := by
      unfold wrapping_add
      rw [Nat.mod_add_mod]
    rw [h1]
    exact ih (a + x)

theorem foldl_mul_eq (l : List Nat) (a : Nat) : List.foldl (· * ·) a l = a * l.prod := by
  induction l generalizing a with
  | nil => simp
  | cons x xs ih =>
    show List.foldl (· * ·) (a * x) xs = a * (x :: xs).prod
    rw [ih (a * x), List.prod_cons, Nat.mul_assoc]

theorem foldl_add_eq (l : List Nat) (a : Nat) : List.foldl (· + ·) a l = a + l.sum := by
  induction l generalizing a with
  | nil => simp
  | cons x xs ih =>
    show List.foldl (· + ·) (a + x) xs = a + (x :: xs).sum
    rw [ih (a + x), List.sum_cons, Nat.add_assoc]

theorem u128_product_eq_mod (l : List Nat) : u128_product l = l.prod % (U128MAX + 1) := by
  have h := foldl_wrapping_mul_mod l 1
  rw [show (1 : Nat) % (U128MAX + 1) = 1 from by decide, foldl_mul_eq, Nat.one_mul] at h
  exact h

theorem u128_sum_eq_mod (l : List Nat) : u128_sum l = l.sum % (U128MAX + 1) := by
  have h := foldl_wrapping_add_mod l 0
  rw [show (0 : Nat) % (U128MAX + 1) = 0 from by decide, foldl_add_eq, Nat.zero_add] at h
  exact h

/-- Claim C8 counterexample: `avg_progess` is not total — on the empty
slice the product is 1 and the sum is 0, and the `u128` division by zero
panics (modelled as `none`), so no value is returned. -/
theorem c8_avg_progess_empty_panics :
    Curve.new ⟨1, 1, 1, 2⟩ = .ok (Curve.mk 1 1 1 2 1 2) ∧
    (Curve.mk 1 1 1 2 1 2).avg_progess [] = none := by
  decide

/-- Claim C8 as amended: for every constructed curve and every slice whose
exact sum is nonzero and whose exact sum and product fit in `u128`,
`avg_progess` completes and returns `product / sum`; on a slice summing to
zero (in particular the empty slice) the division by zero panics instead
of returning. -/
theorem c8_avg_progess_of_sum_pos (cfg : CurveConfig) (c : Curve)
    (_hnew : Curve.new cfg = .ok c) (steps : List Nat) (hsum : steps.sum ≠ 0)
    (hsle : steps.sum ≤ U128MAX) (hple : steps.prod ≤ U128MAX) :
    c.avg_progess steps = some (steps.prod / steps.sum) := by
  have hp : u128_product steps = steps.prod := by
    rw [u128_product_eq_mod, Nat.mod_eq_of_lt (by omega)]
  have hs : u128_sum steps = steps.sum := by
    rw [u128_sum_eq_mod, Nat.mod_eq_of_lt (by omega)]
  unfold Curve.avg_progess
  dsimp only
  rw [hp, hs, if_neg hsum]

theorem c8_avg_progess_of_sum_pos_witness :
    (Curve.mk 1 1 1 2 1 2).avg_progess [2, 3] = some ([2, 3].prod / [2, 3].sum) :=
  c8_avg_progess_of_sum_pos ⟨1, 1, 1, 2⟩ (Curve.mk 1 1 1 2 1 2) (by decide) [2, 3]
    (by decide) (by decide) (by decide)

